import Mathlib

/-!
Shallow embedding of `src/2Lab_Pseudographic_Text/main.cpp`, the bitmap-glyph
text renderer: the `PseudographicText` class, its validation (`setString`), the
glyph-table loader (`createCharTable`), the buffer composer (`createText`) and
the console writer (`output`), together with theorems checking the
specification's claims about them.

Modelling conventions:
- `std::string` content is a `List Char`.
- The glyph resource file is a `List Char` stream; `operator>>` on a `char`
  skips whitespace and extracts one character, and a failed extraction (stream
  exhausted / file missing) leaves the destination untouched, i.e. at the
  indeterminate value the fresh `new char[]` allocation held, modelled by an
  explicit `junk` parameter.
- The Windows console is modelled as the trace of its observable calls:
  `SetConsoleTextAttribute`, `SetConsoleCursorPosition` and character output.
-/

set_option maxRecDepth 10000

/-- Console color palette (main.cpp line 6): `enum class Color` with the 8 base
colors followed by their bright variants, valued 0..15. -/
inductive Color where
  | Black
  | Blue
  | Green
  | Cyan
  | Red
  | Magenta
  | Yellow
  | White
  | BrightBlack
  | BrightBlue
  | BrightGreen
  | BrightCyan
  | BrightRed
  | BrightMagenta
  | BrightYellow
  | BrightWhite
deriving DecidableEq

/-- Numeric value of a `Color`, as produced by `static_cast<int>`. -/
def Color.toNat : Color → Nat
  | .Black => 0
  | .Blue => 1
  | .Green => 2
  | .Cyan => 3
  | .Red => 4
  | .Magenta => 5
  | .Yellow => 6
  | .White => 7
  | .BrightBlack => 8
  | .BrightBlue => 9
  | .BrightGreen => 10
  | .BrightCyan => 11
  | .BrightRed => 12
  | .BrightMagenta => 13
  | .BrightYellow => 14
  | .BrightWhite => 15

/-- Font size preset (main.cpp line 9): `enum class FontSize { Small = 5, Big = 7 }`. -/
inductive FontSize where
  | Small
  | Big
deriving DecidableEq

/-- Numeric value of a `FontSize`, as produced by `static_cast<int>`. -/
def FontSize.toNat : FontSize → Nat
  | .Small => 5
  | .Big => 7

/-- The supported alphabet (main.cpp line 17):
`static inline const std::string availableChars`. -/
def availableChars : List Char :=
  "ABCDEFGHIJKLMNOPQRSTUVWXYZ .,!?0123456789".toList

/-- State of a `PseudographicText` object (main.cpp lines 11-17): the stored
string and the four configuration fields. -/
structure PseudographicText where
  str : List Char
  textChar : Char
  backgroundChar : Char
  fontSize : Nat
  textColor : Color
deriving DecidableEq

/-- Result of the default constructor (main.cpp lines 12-15 and 20-22): the
in-class member initializers. -/
def defaultText : PseudographicText :=
  { str := []
    textChar := '#'
    backgroundChar := ' '
    fontSize := FontSize.Small.toNat
    textColor := Color.BrightWhite }

/-- The validation loop of `setString` (main.cpp lines 31-36): scan the string
left to right and return the first character whose `availableChars.find` comes
back as `npos` (not found), or `none` if every character is supported. -/
def firstUnavailable : List Char → Option Char
  | [] => none
  | c :: rest =>
    if availableChars.contains c then firstUnavailable rest else some c

/-- `setString` (main.cpp lines 30-38): on the first unavailable character the
error is reported (second component) and the object is returned unchanged;
otherwise the string is stored. -/
def PseudographicText.setString (t : PseudographicText) (s : List Char) :
    PseudographicText × Option Char :=
  match firstUnavailable s with
  | some c => (t, some c)
  | none => ({ t with str := s }, none)

/-- `setTextChar` (main.cpp lines 40-42). -/
def PseudographicText.setTextChar (t : PseudographicText) (c : Char) :
    PseudographicText :=
  { t with textChar := c }

/-- `setBackgroundChar` (main.cpp lines 44-46). -/
def PseudographicText.setBackgroundChar (t : PseudographicText) (c : Char) :
    PseudographicText :=
  { t with backgroundChar := c }

/-- `setFontSize` (main.cpp lines 48-50): stores `static_cast<int>(size)`. -/
def PseudographicText.setFontSize (t : PseudographicText) (sz : FontSize) :
    PseudographicText :=
  { t with fontSize := sz.toNat }

/-- `setTextColor` (main.cpp lines 52-54). -/
def PseudographicText.setTextColor (t : PseudographicText) (col : Color) :
    PseudographicText :=
  { t with textColor := col }

/-- The parameterized constructor (main.cpp lines 24-28): member initializers
set the chars and color, then `setString` and `setFontSize` run; a rejected
string leaves `str` at its default empty value.  The second component is the
validation error, if any. -/
def mkPseudographicText (s : List Char) (tc bc : Char) (sz : FontSize)
    (col : Color) : PseudographicText × Option Char :=
  let t0 : PseudographicText :=
    { str := []
      textChar := tc
      backgroundChar := bc
      fontSize := FontSize.Small.toNat
      textColor := col }
  let r := t0.setString s
  (r.1.setFontSize sz, r.2)

/-- Whitespace treated as a separator by `operator>>`. -/
def isWs (c : Char) : Bool :=
  c = ' ' || c = '\n' || c = '\t' || c = '\r'

/-- Complement of `isWs`, for stating which stream characters are tokens. -/
def nonWs (c : Char) : Bool :=
  !(isWs c)

/-- One `in >> c` step: skip whitespace, then extract one character; on an
exhausted stream the extraction fails (`none`) and every later read fails too. -/
def extract (s : List Char) : Option Char × List Char :=
  match s.dropWhile isWs with
  | [] => (none, [])
  | c :: rest => (some c, rest)

/-- A sequence of `n` extraction steps, in order, returning each read's result
(`none` for a failed read) and the remaining stream. -/
def readMarks : Nat → List Char → List (Option Char) × List Char
  | 0, s => ([], s)
  | n + 1, s =>
    let p := extract s
    let q := readMarks n p.2
    (p.1 :: q.1, q.2)

/-- `createCharTable` (main.cpp lines 75-97): allocate a table of
`availableChars.size()` glyphs of `fontSize × fontSize` cells, then fill it by
the nested loops `for j (row) / for i (glyph) / for k (column)` reading one
mark per step from the resource stream, so cell `(i, j, k)` receives read
number `(j * availableChars.size() + i) * fontSize + k`.  No stream state is
ever checked: a failed read leaves the cell at the indeterminate value of the
fresh allocation, modelled by `junk`. -/
def createCharTable (fontSize : Nat) (junk : Char) (resource : List Char) :
    List (List (List Char)) :=
  let n := availableChars.length
  let marks := (readMarks (fontSize * n * fontSize) resource).1
  (List.range n).map fun i =>
    (List.range fontSize).map fun j =>
      (List.range fontSize).map fun k =>
        (marks.getD ((j * n + i) * fontSize + k) none).getD junk

/-- Cell `(i, j, k)` of a glyph table, i.e. `charTable[i][j][k]`; reads outside
the allocated table (undefined behavior in the source) default to a space. -/
def glyphMark (table : List (List (List Char))) (i j k : Nat) : Char :=
  ((table.getD i []).getD j []).getD k ' '

/-- `createText` (main.cpp lines 99-120): a buffer of `fontSize` rows and
`str.size() * fontSize` columns.  The source loops over `i` (character), `j`
(row), `k` (glyph column), writing column `i * fontSize + k` of row `j`; here
each cell is produced at its coordinates directly, recovering
`i = col / fontSize` and `k = col % fontSize`.  The cell is first assigned the
raw mark `charTable[availableChars.find(str[i])][j][k]`, then overwritten by
`textChar` when the mark is `'1'` and by `backgroundChar` when it is `'0'`. -/
def PseudographicText.createText (t : PseudographicText)
    (table : List (List (List Char))) : List (List Char) :=
  (List.range t.fontSize).map fun j =>
    (List.range (t.str.length * t.fontSize)).map fun col =>
      let m := glyphMark table
        (availableChars.indexOf (t.str.getD (col / t.fontSize) ' '))
        j (col % t.fontSize)
      if m = '1' then t.textChar else if m = '0' then t.backgroundChar else m

/-- Observable console calls made by `output`: color attribute changes, cursor
positioning, and single characters sent to `std::cout`. -/
inductive Ev where
  | SetColor (attr : Nat)
  | SetCursor (x y : Int)
  | Out (c : Char)
deriving DecidableEq

/-- Cell `(i, j)` of a render buffer, i.e. `text[i][j]`; out-of-range reads
(undefined behavior in the source) default to a space. -/
def rowGet (text : List (List Char)) (i j : Nat) : Char :=
  (text.getD i []).getD j ' '

/-- `output` (main.cpp lines 122-144) as an event trace: set the text color,
position the cursor at the origin, then per row re-position the cursor and
write the row's `str.size() * fontSize` cells, emitting one extra
`backgroundChar` after every `fontSize`-th column (`(j + 1) % fontSize == 0`)
and a newline at the row's end; finally reset the attribute to
`Black * 16 + BrightWhite`. -/
def PseudographicText.output (t : PseudographicText) (text : List (List Char))
    (line column : Int) : List Ev :=
  [Ev.SetColor t.textColor.toNat, Ev.SetCursor column line]
    ++ ((List.range t.fontSize).flatMap fun i =>
        Ev.SetCursor column (line + (i : Int)) ::
          (((List.range (t.str.length * t.fontSize)).flatMap fun j =>
            Ev.Out (rowGet text i j) ::
              (if (j + 1) % t.fontSize = 0 then [Ev.Out t.backgroundChar] else []))
            ++ [Ev.Out '\n']))
    ++ [Ev.SetColor (Color.Black.toNat * 16 + Color.BrightWhite.toNat)]

/-- The instance `print` (main.cpp lines 61-67): build the glyph table from the
resource, compose the buffer, and write it at the given origin. -/
def PseudographicText.print (t : PseudographicText) (junk : Char)
    (resource : List Char) (line column : Int) : List Ev :=
  t.output (t.createText (createCharTable t.fontSize junk resource)) line column

/-- The static one-shot `print` overload (main.cpp lines 69-72): construct a
transient object via the parameterized constructor and render it. -/
def printOnce (s : List Char) (tc bc : Char) (sz : FontSize) (col : Color)
    (junk : Char) (resource : List Char) (line column : Int) : List Ev :=
  (mkPseudographicText s tc bc sz col).1.print junk resource line column

/-- The console's active color attribute after a trace runs, starting from
`init`: the argument of the last `SetColor` event, if any. -/
def activeColorAfter (evs : List Ev) (init : Nat) : Nat :=
  evs.foldl (fun a e => match e with | Ev.SetColor c => c | _ => a) init

/-- Invariant of the stored glyph size: it is one of the two presets. -/
def sizeInv (t : PseudographicText) : Prop :=
  t.fontSize = 5 ∨ t.fontSize = 7

/-- Sample object used by concrete witnesses: one-character content with a
(hypothetical) glyph size of 2 to keep evaluation small. -/
def sampleText : PseudographicText :=
  { str := ['A']
    textChar := '#'
    backgroundChar := ' '
    fontSize := 2
    textColor := Color.BrightWhite }

/-- Sample well-formed glyph table (all marks ink or blank) for glyph size 2. -/
def sampleTable01 : List (List (List Char)) :=
  List.replicate 41 [['1', '0'], ['0', '1']]

/-- Sample glyph table containing marks that are neither ink nor blank. -/
def sampleTableRaw : List (List (List Char)) :=
  List.replicate 41 [['1', 'X'], ['0', '2']]

/-- Sample composed buffer for `sampleText`. -/
def sampleBuf : List (List Char) :=
  [['#', ' '], [' ', '#']]

/-! ## Helper lemmas -/

/-- A `getD` on a mapped range at an in-range index evaluates the function. -/
theorem getD_map_range {α : Type} (n : Nat) (f : Nat → α) (m : Nat) (d : α)
    (h : m < n) : ((List.range n).map f).getD m d = f m := by
  simp [List.getD_eq_getElem?_getD, List.getElem?_map, List.getElem?_range, h]

/-- In-bounds `getD` agrees with index access. -/
theorem getD_lt {α : Type} (l : List α) (n : Nat) (d : α) (h : n < l.length) :
    l.getD n d = l[n] := by
  simp [List.getD_eq_getElem?_getD, List.getElem?_eq_getElem h]

/-- In-bounds `getD` yields a member of the list. -/
theorem getD_mem {α : Type} (l : List α) (n : Nat) (d : α) (h : n < l.length) :
    l.getD n d ∈ l := by
  rw [getD_lt l n d h]
  exact List.getElem_mem h

/-- The validation scan finds nothing exactly when every character is in the
supported alphabet. -/
theorem firstUnavailable_none_iff (s : List Char) :
    firstUnavailable s = none ↔ ∀ c ∈ s, availableChars.contains c = true := by
  induction s with
  | nil => simp [firstUnavailable]
  | cons a s ih =>
    by_cases ha : availableChars.contains a = true
    · have hmem : a ∈ availableChars := by simpa using ha
      simp [firstUnavailable, hmem, ih]
    · have hmem : a ∉ availableChars := by simpa using ha
      simp [firstUnavailable, hmem]

/-- When some character is unsupported, the validation scan reports exactly the
first one: the input splits as supported prefix, offender, rest. -/
theorem firstUnavailable_spec (s : List Char)
    (h : ∃ c ∈ s, availableChars.contains c = false) :
    ∃ pre c post, s = pre ++ c :: post ∧
      (∀ d ∈ pre, availableChars.contains d = true) ∧
      availableChars.contains c = false ∧ firstUnavailable s = some c := by
  induction s with
  | nil => simp at h
  | cons a s ih =>
    by_cases ha : availableChars.contains a = true
    · obtain ⟨c, hc, hcf⟩ := h
      rcases List.mem_cons.1 hc with rfl | hcs
      · rw [ha] at hcf
        cases hcf
      · obtain ⟨pre, c', post, hsplit, hpre, hcf', hfu⟩ := ih ⟨c, hcs, hcf⟩
        refine ⟨a :: pre, c', post, by simp [hsplit], ?_, hcf', ?_⟩
        · intro d hd
          rcases List.mem_cons.1 hd with rfl | hdp
          · exact ha
          · exact hpre d hdp
        · have hmem : a ∈ availableChars := by simpa using ha
          simp [firstUnavailable, hmem, hfu]
    · have ha' : availableChars.contains a = false := by simpa using ha
      have hmem : a ∉ availableChars := by simpa using ha
      exact ⟨[], a, s, rfl, by simp, ha', by simp [firstUnavailable, hmem]⟩

/-- The error component of `setString` is exactly the validation scan result. -/
theorem setString_snd (t : PseudographicText) (s : List Char) :
    (t.setString s).2 = firstUnavailable s := by
  cases h : firstUnavailable s <;> simp [PseudographicText.setString, h]

/-! ## Claim C1 -/

/-- Claim C1: `setString` on an input containing an unsupported character
leaves the stored object unchanged and reports the first offending character
(the input splits as a fully supported prefix followed by the reported
character). -/
theorem setString_rejects_and_keeps_state (t : PseudographicText)
    (s : List Char) (h : ∃ c ∈ s, availableChars.contains c = false) :
    (t.setString s).1 = t ∧
    ∃ pre c post, s = pre ++ c :: post ∧
      (∀ d ∈ pre, availableChars.contains d = true) ∧
      availableChars.contains c = false ∧ (t.setString s).2 = some c := by
  obtain ⟨pre, c, post, hsplit, hpre, hc, hfu⟩ := firstUnavailable_spec s h
  exact ⟨by simp [PseudographicText.setString, hfu],
    pre, c, post, hsplit, hpre, hc, by simp [PseudographicText.setString, hfu]⟩

/-- Concrete instantiation of the C1 theorem at content "A@". -/
theorem setString_rejects_and_keeps_state_witness :
    (∃ c ∈ ['A', '@'], availableChars.contains c = false) ∧
    ((defaultText.setString ['A', '@']).1 = defaultText ∧
     ∃ pre c post, ['A', '@'] = pre ++ c :: post ∧
       (∀ d ∈ pre, availableChars.contains d = true) ∧
       availableChars.contains c = false ∧
       (defaultText.setString ['A', '@']).2 = some c) :=
  ⟨by decide, setString_rejects_and_keeps_state defaultText ['A', '@'] (by decide)⟩

/-! ## Claim C2 -/

/-- Claim C2 counterexample: the supported alphabet has 41 characters, not the
42 the specification states. -/
theorem availableChars_count_not_42 : availableChars.length ≠ 42 := by decide

/-- Claim C2 amended: the supported alphabet is exactly A-Z, space, '.', ',',
'!', '?', '0'-'9' in that fixed order and has 41 characters; `setString`
accepts precisely the strings whose characters all belong to it, and the glyph
table the loader builds has one entry per alphabet character. -/
theorem availableChars_spec :
    availableChars =
      ['A', 'B', 'C', 'D', 'E', 'F', 'G', 'H', 'I', 'J', 'K', 'L', 'M',
       'N', 'O', 'P', 'Q', 'R', 'S', 'T', 'U', 'V', 'W', 'X', 'Y', 'Z',
       ' ', '.', ',', '!', '?',
       '0', '1', '2', '3', '4', '5', '6', '7', '8', '9'] ∧
    availableChars.length = 41 ∧
    (∀ (t : PseudographicText) (s : List Char),
      (t.setString s).2 = none ↔ ∀ c ∈ s, availableChars.contains c = true) ∧
    (∀ fsz junk resource,
      (createCharTable fsz junk resource).length = availableChars.length) := by
  refine ⟨by decide, by decide, ?_, ?_⟩
  · intro t s
    rw [setString_snd]
    exact firstUnavailable_none_iff s
  · intro fsz junk resource
    simp [createCharTable]

/-- Concrete instantiation of the C2 amended theorem. -/
theorem availableChars_spec_witness : availableChars.length = 41 :=
  availableChars_spec.2.1

/-! ## Claim C4 -/

/-- Every extraction from the exhausted (missing-file) stream fails. -/
theorem readMarks_nil (n : Nat) :
    (readMarks n []).1 = List.replicate n none := by
  induction n with
  | zero => rfl
  | succ n ih =>
    have h : extract [] = (none, []) := rfl
    simp [readMarks, h, ih, List.replicate_succ]

/-- Claim C4 counterexample: loading with glyph size 5 from a missing resource
(modelled as the empty stream, on which every extraction fails, exactly as for
an unopened `ifstream`) is not rejected: it silently produces a complete
41-glyph table of 5 by 5 cells, every cell left at the allocation's
indeterminate value. -/
theorem createCharTable_silent_on_missing_resource :
    createCharTable 5 '?' [] =
      List.replicate 41 (List.replicate 5 (List.replicate 5 '?')) := by
  have h41 : availableChars.length = 41 := by decide
  have hcell : ∀ N idx : Nat,
      ((List.replicate N (none : Option Char)).getD idx none).getD '?' = '?' := by
    intro N idx
    rw [List.getD_eq_getElem?_getD, List.getElem?_replicate]
    split <;> rfl
  simp only [createCharTable, readMarks_nil, hcell, h41]
  simp [List.map_const']

/-- Claim C4 amended: the loader is total and performs no validation at all:
for every glyph size and every resource stream (missing, truncated or
malformed alike) it returns a table of exactly one glyph per supported
character, each of `fontSize` rows of `fontSize` cells, with failed reads left
at the indeterminate allocation value. -/
theorem createCharTable_total_shape (fsz : Nat) (junk : Char)
    (resource : List Char) :
    (createCharTable fsz junk resource).length = availableChars.length ∧
    ∀ g ∈ createCharTable fsz junk resource,
      g.length = fsz ∧ ∀ row ∈ g, row.length = fsz := by
  constructor
  · simp [createCharTable]
  · intro g hg
    simp only [createCharTable, List.mem_map] at hg
    obtain ⟨i, hi, rfl⟩ := hg
    refine ⟨by simp, ?_⟩
    intro row hrow
    simp only [List.mem_map] at hrow
    obtain ⟨j, hj, rfl⟩ := hrow
    simp

/-- Concrete instantiation of the C4 amended theorem on a malformed one-token
resource. -/
theorem createCharTable_total_shape_witness :
    (createCharTable 5 '?' ['1']).length = availableChars.length ∧
    ∀ g ∈ createCharTable 5 '?' ['1'],
      g.length = 5 ∧ ∀ row ∈ g, row.length = 5 :=
  createCharTable_total_shape 5 '?' ['1']

/-! ## Claim C8 -/

/-- Claim C8: whatever color attribute a render uses and whatever attribute the
console started with, after `print` the console's active color attribute is the
hard-coded default `Black * 16 + BrightWhite`, i.e. background nibble 0 with
bright-white foreground, value 15. -/
theorem print_resets_color (t : PseudographicText) (junk : Char)
    (resource : List Char) (line column : Int) (init : Nat) :
    activeColorAfter (t.print junk resource line column) init =
      Color.Black.toNat * 16 + Color.BrightWhite.toNat ∧
    Color.Black.toNat * 16 + Color.BrightWhite.toNat = 15 := by
  refine ⟨?_, rfl⟩
  unfold PseudographicText.print PseudographicText.output activeColorAfter
  rw [List.foldl_append]
  rfl

/-! ## Claim C9 -/

/-- Claim C9: the stored glyph size is 5 after default construction, every
`FontSize` value is 5 or 7, every operation keeps the stored size in the set
of presets, and the composed buffer of any size-invariant object has height 5
or 7. -/
theorem fontSize_always_5_or_7 :
    defaultText.fontSize = 5 ∧
    (∀ sz : FontSize, sz.toNat = 5 ∨ sz.toNat = 7) ∧
    (∀ (t : PseudographicText) (s : List Char),
      sizeInv t → sizeInv (t.setString s).1) ∧
    (∀ (t : PseudographicText) (c : Char), sizeInv t → sizeInv (t.setTextChar c)) ∧
    (∀ (t : PseudographicText) (c : Char),
      sizeInv t → sizeInv (t.setBackgroundChar c)) ∧
    (∀ (t : PseudographicText) (sz : FontSize), sizeInv (t.setFontSize sz)) ∧
    (∀ (t : PseudographicText) (col : Color),
      sizeInv t → sizeInv (t.setTextColor col)) ∧
    (∀ (s : List Char) (tc bc : Char) (sz : FontSize) (col : Color),
      sizeInv (mkPseudographicText s tc bc sz col).1) ∧
    (∀ (t : PseudographicText) (table : List (List (List Char))), sizeInv t →
      (t.createText table).length = 5 ∨ (t.createText table).length = 7) := by
  refine ⟨rfl, ?_, ?_, ?_, ?_, ?_, ?_, ?_, ?_⟩
  · intro sz
    cases sz
    · exact Or.inl rfl
    · exact Or.inr rfl
  · intro t s h
    cases hfu : firstUnavailable s <;>
      simpa [PseudographicText.setString, hfu, sizeInv] using h
  · intro t c h
    simpa [PseudographicText.setTextChar, sizeInv] using h
  · intro t c h
    simpa [PseudographicText.setBackgroundChar, sizeInv] using h
  · intro t sz
    cases sz
    · exact Or.inl rfl
    · exact Or.inr rfl
  · intro t col h
    simpa [PseudographicText.setTextColor, sizeInv] using h
  · intro s tc bc sz col
    cases sz
    · exact Or.inl rfl
    · exact Or.inr rfl
  · intro t table h
    have hlen : (t.createText table).length = t.fontSize := by
      simp [PseudographicText.createText]
    rw [hlen]
    exact h

/-- Concrete instantiation of the C9 theorem: the size invariant survives a
`setString` on the default object. -/
theorem fontSize_always_5_or_7_witness :
    sizeInv (defaultText.setString ['A']).1 :=
  fontSize_always_5_or_7.2.2.1 defaultText ['A'] (Or.inl rfl)

/-! ## Composition: shared lemmas for C5 and C10 -/

/-- Shape of the composed buffer: `fontSize` rows of `str.length * fontSize`
cells, for any glyph table whatsoever. -/
theorem createText_shape (t : PseudographicText)
    (table : List (List (List Char))) :
    (t.createText table).length = t.fontSize ∧
    ∀ row ∈ t.createText table, row.length = t.str.length * t.fontSize := by
  constructor
  · simp [PseudographicText.createText]
  · intro row hrow
    simp only [PseudographicText.createText, List.mem_map] at hrow
    obtain ⟨j, hj, rfl⟩ := hrow
    simp

/-- Value of buffer cell `(j, col)` for in-range coordinates, read back with
the same defaulted access the writer used. -/
theorem createText_getD (t : PseudographicText)
    (table : List (List (List Char))) (j col : Nat) (hj : j < t.fontSize)
    (hcol : col < t.str.length * t.fontSize) :
    ((t.createText table).getD j []).getD col ' ' =
      (let m := glyphMark table
        (availableChars.indexOf (t.str.getD (col / t.fontSize) ' '))
        j (col % t.fontSize)
       if m = '1' then t.textChar else if m = '0' then t.backgroundChar else m) := by
  unfold PseudographicText.createText
  rw [getD_map_range _ _ _ _ hj, getD_map_range _ _ _ _ hcol]

/-- Division and remainder recover the character index and glyph column from a
buffer column. -/
theorem col_div_mod (i fs k : Nat) (hk : k < fs) :
    (i * fs + k) / fs = i ∧ (i * fs + k) % fs = k := by
  have hfs : 0 < fs := Nat.lt_of_le_of_lt (Nat.zero_le k) hk
  constructor
  · rw [Nat.mul_comm, Nat.mul_add_div hfs, Nat.div_eq_of_lt hk, Nat.add_zero]
  · rw [Nat.mul_comm, Nat.mul_add_mod, Nat.mod_eq_of_lt hk]

/-- A buffer column built from an in-range character and glyph column is in
range. -/
theorem col_lt (i k L fs : Nat) (hi : i < L) (hk : k < fs) :
    i * fs + k < L * fs := by
  calc i * fs + k < i * fs + fs := by omega
    _ = (i + 1) * fs := by ring
    _ ≤ L * fs := Nat.mul_le_mul_right fs hi

/-! ## Claim C10 -/

/-- Claim C10: composition is total over arbitrary glyph tables: the buffer
always has `fontSize` rows of `str.length * fontSize` cells, and each cell is
the looked-up raw mark copied unchanged, except that an ink mark `'1'` becomes
`textChar` and a blank mark `'0'` becomes `backgroundChar`; no error can
arise. -/
theorem createText_raw_mark_copy (t : PseudographicText)
    (table : List (List (List Char))) :
    (t.createText table).length = t.fontSize ∧
    (∀ row ∈ t.createText table, row.length = t.str.length * t.fontSize) ∧
    ∀ i j k, i < t.str.length → j < t.fontSize → k < t.fontSize →
      ((t.createText table).getD j []).getD (i * t.fontSize + k) ' ' =
        (let m := glyphMark table (availableChars.indexOf (t.str.getD i ' ')) j k
         if m = '1' then t.textChar
         else if m = '0' then t.backgroundChar else m) := by
  refine ⟨(createText_shape t table).1, (createText_shape t table).2, ?_⟩
  intro i j k hi hj hk
  rw [createText_getD t table j (i * t.fontSize + k) hj
    (col_lt i k t.str.length t.fontSize hi hk)]
  rw [(col_div_mod i t.fontSize k hk).1, (col_div_mod i t.fontSize k hk).2]

/-- Concrete instantiation of the C10 theorem on a table holding marks that
are neither ink nor blank. -/
theorem createText_raw_mark_copy_witness :
    (sampleText.createText sampleTableRaw).length = sampleText.fontSize ∧
    (∀ row ∈ sampleText.createText sampleTableRaw,
      row.length = sampleText.str.length * sampleText.fontSize) ∧
    ∀ i j k, i < sampleText.str.length → j < sampleText.fontSize →
        k < sampleText.fontSize →
      ((sampleText.createText sampleTableRaw).getD j []).getD
          (i * sampleText.fontSize + k) ' ' =
        (let m := glyphMark sampleTableRaw
          (availableChars.indexOf (sampleText.str.getD i ' ')) j k
         if m = '1' then sampleText.textChar
         else if m = '0' then sampleText.backgroundChar else m) :=
  createText_raw_mark_copy sampleText sampleTableRaw

/-! ## Claim C5 -/

/-- Claim C5: for valid content and a well-formed all-ink-or-blank glyph table,
the composed buffer has height exactly `fontSize` and width exactly
`str.length * fontSize` (zero for the empty string), and cell
`(row, i * fontSize + k)` is `textChar` when mark `(row, k)` of the glyph of
character `i` is ink and `backgroundChar` when it is blank; no extra padding
columns exist in the buffer. -/
theorem createText_composes (t : PseudographicText)
    (table : List (List (List Char)))
    (hvalid : ∀ c ∈ t.str, availableChars.contains c = true)
    (hlen : table.length = availableChars.length)
    (hshape : ∀ g ∈ table, g.length = t.fontSize ∧ ∀ row ∈ g, row.length = t.fontSize)
    (hmarks : ∀ g ∈ table, ∀ row ∈ g, ∀ m ∈ row, m = '1' ∨ m = '0') :
    (t.createText table).length = t.fontSize ∧
    (∀ row ∈ t.createText table, row.length = t.str.length * t.fontSize) ∧
    ∀ i j k, i < t.str.length → j < t.fontSize → k < t.fontSize →
      ((t.createText table).getD j []).getD (i * t.fontSize + k) ' ' =
        (if glyphMark table (availableChars.indexOf (t.str.getD i ' ')) j k = '1'
         then t.textChar else t.backgroundChar) := by
  refine ⟨(createText_shape t table).1, (createText_shape t table).2, ?_⟩
  intro i j k hi hj hk
  rw [createText_getD t table j (i * t.fontSize + k) hj
    (col_lt i k t.str.length t.fontSize hi hk)]
  rw [(col_div_mod i t.fontSize k hk).1, (col_div_mod i t.fontSize k hk).2]
  have hc : t.str.getD i ' ' ∈ t.str := getD_mem t.str i ' ' hi
  have hmem : t.str.getD i ' ' ∈ availableChars := by
    simpa using hvalid (t.str.getD i ' ') hc
  have hidx : availableChars.indexOf (t.str.getD i ' ') < table.length := by
    rw [hlen]
    exact List.indexOf_lt_length.2 hmem
  have hg : table.getD (availableChars.indexOf (t.str.getD i ' ')) [] ∈ table :=
    getD_mem table _ [] hidx
  obtain ⟨hglen, hrows⟩ := hshape _ hg
  have hrow : (table.getD (availableChars.indexOf (t.str.getD i ' ')) []).getD j [] ∈
      table.getD (availableChars.indexOf (t.str.getD i ' ')) [] :=
    getD_mem _ j [] (by rw [hglen]; exact hj)
  have hrlen := hrows _ hrow
  have hm : glyphMark table (availableChars.indexOf (t.str.getD i ' ')) j k ∈
      (table.getD (availableChars.indexOf (t.str.getD i ' ')) []).getD j [] := by
    unfold glyphMark
    exact getD_mem _ k ' ' (by rw [hrlen]; exact hk)
  rcases hmarks _ hg _ hrow _ hm with h1 | h0
  · rw [h1]
    simp
  · rw [h0]
    simp

/-- Concrete instantiation of the C5 theorem on a well-formed sample table. -/
theorem createText_composes_witness :
    ((∀ c ∈ sampleText.str, availableChars.contains c = true) ∧
     sampleTable01.length = availableChars.length ∧
     (∀ g ∈ sampleTable01,
       g.length = sampleText.fontSize ∧
       ∀ row ∈ g, row.length = sampleText.fontSize) ∧
     (∀ g ∈ sampleTable01, ∀ row ∈ g, ∀ m ∈ row, m = '1' ∨ m = '0')) ∧
    ((sampleText.createText sampleTable01).length = sampleText.fontSize ∧
     (∀ row ∈ sampleText.createText sampleTable01,
       row.length = sampleText.str.length * sampleText.fontSize) ∧
     ∀ i j k, i < sampleText.str.length → j < sampleText.fontSize →
         k < sampleText.fontSize →
       ((sampleText.createText sampleTable01).getD j []).getD
           (i * sampleText.fontSize + k) ' ' =
         (if glyphMark sampleTable01
              (availableChars.indexOf (sampleText.str.getD i ' ')) j k = '1'
          then sampleText.textChar else sampleText.backgroundChar)) :=
  ⟨⟨by decide, by decide, by decide, by decide⟩,
   createText_composes sampleText sampleTable01
     (by decide) (by decide) (by decide) (by decide)⟩

/-! ## Claim C6 -/

/-- Skipping leading whitespace does not change the token stream. -/
theorem filter_dropWhile_ws (s : List Char) :
    (s.dropWhile isWs).filter nonWs = s.filter nonWs := by
  induction s with
  | nil => rfl
  | cons a s ih =>
    by_cases h : isWs a = true
    · simp [List.dropWhile_cons, List.filter_cons, h, nonWs, ih]
    · have h' : isWs a = false := by simpa using h
      simp [List.dropWhile_cons, List.filter_cons, h', nonWs]

/-- The first element surviving `dropWhile` falsifies the predicate. -/
theorem dropWhile_first_false {α : Type} (p : α → Bool) (s : List α) (c : α)
    (rest : List α) (h : s.dropWhile p = c :: rest) : p c = false := by
  induction s with
  | nil => cases h
  | cons a s ih =>
    by_cases ha : p a = true
    · rw [List.dropWhile_cons, if_pos ha] at h
      exact ih h
    · have ha' : p a = false := by simpa using ha
      rw [List.dropWhile_cons, if_neg (by simp [ha'])] at h
      cases h
      exact ha'

/-- The sequence of `n` extraction results is the first `n` tokens of the
whitespace-filtered stream, `none` past its end. -/
theorem readMarks_fst (n : Nat) (s : List Char) :
    (readMarks n s).1 = (List.range n).map (fun m => (s.filter nonWs)[m]?) := by
  induction n generalizing s with
  | zero => simp [readMarks]
  | succ n ih =>
    cases h : s.dropWhile isWs with
    | nil =>
      have hf : s.filter nonWs = [] := by
        rw [← filter_dropWhile_ws, h]
        rfl
      have hx : extract s = (none, []) := by
        unfold extract
        rw [h]
      simp [readMarks, hx, ih, hf, List.range_succ_eq_map, Function.comp_def,
        List.map_const']
    | cons c rest =>
      have hc : nonWs c = true := by
        simp [nonWs, dropWhile_first_false isWs s c rest h]
      have hf : s.filter nonWs = c :: rest.filter nonWs := by
        rw [← filter_dropWhile_ws, h, List.filter_cons, if_pos (by simp [hc])]
      have hx : extract s = (some c, rest) := by
        unfold extract
        rw [h]
      simp [readMarks, hx, ih, hf, List.range_succ_eq_map, Function.comp]

/-- Bound on the read index of cell `(i, j, k)` within the loader's total read
count. -/
theorem read_index_lt (i j k A fsz : Nat) (hi : i < A) (hj : j < fsz)
    (hk : k < fsz) : (j * A + i) * fsz + k < fsz * A * fsz := by
  have h1 : j * A + i < fsz * A := by
    calc j * A + i < j * A + A := by omega
      _ = (j + 1) * A := by ring
      _ ≤ fsz * A := Nat.mul_le_mul_right A hj
  calc (j * A + i) * fsz + k < (j * A + i) * fsz + fsz := by omega
    _ = (j * A + i + 1) * fsz := by ring
    _ ≤ fsz * A * fsz := Nat.mul_le_mul_right fsz h1

/-- Claim C6: the loader consumes the resource row-major across all glyphs:
cell `(i, j, k)` of the built table is whitespace-separated token number
`(j * 41 + i) * fontSize + k` of the resource (41 being the alphabet size),
i.e. row `j` of every glyph in table order is read before row `j + 1`; a
missing token leaves the cell at the indeterminate value. -/
theorem createCharTable_row_major (fsz : Nat) (junk : Char)
    (resource : List Char) (i j k : Nat) (hi : i < availableChars.length)
    (hj : j < fsz) (hk : k < fsz) :
    glyphMark (createCharTable fsz junk resource) i j k =
      (resource.filter nonWs).getD
        ((j * availableChars.length + i) * fsz + k) junk := by
  have hidx : (j * availableChars.length + i) * fsz + k <
      fsz * availableChars.length * fsz :=
    read_index_lt i j k availableChars.length fsz hi hj hk
  unfold glyphMark createCharTable
  rw [getD_map_range _ _ _ _ hi, getD_map_range _ _ _ _ hj,
    getD_map_range _ _ _ _ hk, readMarks_fst,
    getD_map_range _ _ _ _ hidx, List.getD_eq_getElem?_getD]

/-- Concrete instantiation of the C6 theorem: with glyph size 2 and a
three-character resource holding tokens '1' and '0', cell (0,0,1) is token
number 1, i.e. '0'. -/
theorem createCharTable_row_major_witness :
    (0 < availableChars.length ∧ 0 < 2 ∧ 1 < 2) ∧
    glyphMark (createCharTable 2 '?' ['1', ' ', '0']) 0 0 1 =
      (['1', ' ', '0'].filter nonWs).getD
        ((0 * availableChars.length + 0) * 2 + 1) '?' :=
  ⟨⟨by decide, by decide, by decide⟩,
   createCharTable_row_major 2 '?' ['1', ' ', '0'] 0 0 1
     (by decide) (by decide) (by decide)⟩

/-! ## Claim C7 -/

/-- Mapping before flat-mapping composes the functions. -/
theorem flatMap_map_comm {α β γ : Type} (l : List α) (f : α → β)
    (g : β → List γ) : (l.map f).flatMap g = l.flatMap (fun a => g (f a)) := by
  induction l with
  | nil => rfl
  | cons a l ih => simp [ih]

/-- Flat-mapping singletons is mapping. -/
theorem flatMap_single {α β : Type} (l : List α) (g : α → β) :
    l.flatMap (fun a => [g a]) = l.map g := by
  induction l with
  | nil => rfl
  | cons a l ih => simp [ih]

/-- One glyph-wide block: emitting a cell per column plus the spacing cell
after the last column equals the plain cells followed by the spacer. -/
theorem flatMap_singleton_spacing (m : Nat) (hm : 0 < m) (f : Nat → Ev)
    (x : Ev) :
    (List.range m).flatMap
        (fun k => f k :: (if (k + 1) % m = 0 then [x] else [])) =
      (List.range m).map f ++ [x] := by
  obtain ⟨n, rfl⟩ : ∃ n, m = n + 1 := ⟨m - 1, by omega⟩
  rw [List.range_succ, List.flatMap_append, List.map_append]
  have h1 : (List.range n).flatMap
      (fun k => f k :: (if (k + 1) % (n + 1) = 0 then [x] else [])) =
      (List.range n).map f := by
    have hcong : ∀ k ∈ List.range n,
        (f k :: (if (k + 1) % (n + 1) = 0 then [x] else [])) = [f k] := by
      intro k hk
      have hklt : k + 1 < n + 1 := by simpa using List.mem_range.1 hk
      rw [Nat.mod_eq_of_lt hklt]
      simp
    rw [List.flatMap_congr hcong, flatMap_single]
  rw [h1]
  simp [Nat.mod_self]

/-- Grouping the per-column loop of a row: the row's `L * m` cells with a
spacer after every `m`-th column equal `L` blocks of `m` cells each followed
by one spacer. -/
theorem spacing_groups (L m : Nat) (hm : 0 < m) (f : Nat → Ev) (x : Ev) :
    (List.range (L * m)).flatMap
        (fun j => f j :: (if (j + 1) % m = 0 then [x] else [])) =
      (List.range L).flatMap
        (fun ci => (List.range m).map (fun k => f (ci * m + k)) ++ [x]) := by
  induction L with
  | zero => simp
  | succ L ih =>
    have hsplit : (L + 1) * m = L * m + m := by ring
    rw [hsplit, List.range_add, List.flatMap_append, ih, List.range_succ,
      List.flatMap_append, flatMap_map_comm]
    congr 1
    have hmod : ∀ k : Nat, (L * m + k + 1) % m = (k + 1) % m := by
      intro k
      have hre : L * m + k + 1 = k + 1 + L * m := by ring
      rw [hre, Nat.add_mul_mod_self_right]
    have hcong : ∀ k ∈ List.range m,
        (f (L * m + k) :: (if (L * m + k + 1) % m = 0 then [x] else [])) =
        (f (L * m + k) :: (if (k + 1) % m = 0 then [x] else [])) := by
      intro k hk
      rw [hmod k]
    rw [List.flatMap_congr hcong,
      flatMap_singleton_spacing m hm (fun k => f (L * m + k)) x]
    simp

/-- Claim C7: the writer emits, per row, the buffer's cells grouped in
`fontSize`-wide blocks with exactly one extra `backgroundChar` after each
block (i.e. after each rendered character), and the buffer itself stores no
spacing: every buffer row has width exactly `str.length * fontSize`. -/
theorem output_inter_character_spacing (t : PseudographicText)
    (text : List (List Char)) (line column : Int) (hfs : 0 < t.fontSize) :
    t.output text line column =
      [Ev.SetColor t.textColor.toNat, Ev.SetCursor column line]
        ++ ((List.range t.fontSize).flatMap fun i =>
            Ev.SetCursor column (line + (i : Int)) ::
              (((List.range t.str.length).flatMap fun ci =>
                  ((List.range t.fontSize).map fun k =>
                    Ev.Out (rowGet text i (ci * t.fontSize + k)))
                    ++ [Ev.Out t.backgroundChar])
                ++ [Ev.Out '\n']))
        ++ [Ev.SetColor (Color.Black.toNat * 16 + Color.BrightWhite.toNat)] ∧
    ∀ table, ∀ row ∈ t.createText table,
      row.length = t.str.length * t.fontSize := by
  constructor
  · unfold PseudographicText.output
    congr 1
    congr 1
    have hcong : ∀ i ∈ List.range t.fontSize,
        (Ev.SetCursor column (line + (i : Int)) ::
          (((List.range (t.str.length * t.fontSize)).flatMap fun j =>
            Ev.Out (rowGet text i j) ::
              (if (j + 1) % t.fontSize = 0 then [Ev.Out t.backgroundChar]
               else []))
            ++ [Ev.Out '\n'])) =
        (Ev.SetCursor column (line + (i : Int)) ::
          (((List.range t.str.length).flatMap fun ci =>
              ((List.range t.fontSize).map fun k =>
                Ev.Out (rowGet text i (ci * t.fontSize + k)))
                ++ [Ev.Out t.backgroundChar])
            ++ [Ev.Out '\n'])) := by
      intro i hi
      rw [spacing_groups t.str.length t.fontSize hfs
        (fun j => Ev.Out (rowGet text i j)) (Ev.Out t.backgroundChar)]
    exact List.flatMap_congr hcong
  · intro table row hrow
    exact (createText_shape t table).2 row hrow

/-- Concrete instantiation of the C7 theorem on the two-row sample buffer. -/
theorem output_inter_character_spacing_witness :
    0 < sampleText.fontSize ∧
    (sampleText.output sampleBuf 3 4 =
      [Ev.SetColor sampleText.textColor.toNat, Ev.SetCursor 4 3]
        ++ ((List.range sampleText.fontSize).flatMap fun i =>
            Ev.SetCursor 4 (3 + (i : Int)) ::
              (((List.range sampleText.str.length).flatMap fun ci =>
                  ((List.range sampleText.fontSize).map fun k =>
                    Ev.Out (rowGet sampleBuf i (ci * sampleText.fontSize + k)))
                    ++ [Ev.Out sampleText.backgroundChar])
                ++ [Ev.Out '\n']))
        ++ [Ev.SetColor (Color.Black.toNat * 16 + Color.BrightWhite.toNat)] ∧
     ∀ table, ∀ row ∈ sampleText.createText table,
       row.length = sampleText.str.length * sampleText.fontSize) :=
  ⟨by decide, output_inter_character_spacing sampleText sampleBuf 3 4 (by decide)⟩

/-! ## Claim C3 -/

/-- Claim C3 counterexample: the static one-shot render of "@" (an unsupported
character) does write to the display surface: its event trace is nonempty (the
color attribute is set, the cursor is repositioned, newlines are emitted), so
"performs no display write" fails. -/
theorem printOnce_invalid_still_writes :
    printOnce ['@'] '#' ' ' FontSize.Small Color.BrightWhite '?' [] 20 20 ≠
      [] := by decide

/-- Claim C3 amended: on content with an unsupported character the one-shot
render reports the validation failure and the transient object keeps empty
content, but the render still runs against the display: it sets the requested
color, positions the cursor once at the origin and once per row, emits a
newline per row, and resets the color to the default; it emits no glyph or
spacing characters. -/
theorem printOnce_invalid_trace (s : List Char) (tc bc : Char) (sz : FontSize)
    (col : Color) (junk : Char) (resource : List Char) (line column : Int)
    (h : ∃ c ∈ s, availableChars.contains c = false) :
    (mkPseudographicText s tc bc sz col).2 ≠ none ∧
    printOnce s tc bc sz col junk resource line column =
      [Ev.SetColor col.toNat, Ev.SetCursor column line]
        ++ ((List.range sz.toNat).flatMap fun i =>
            [Ev.SetCursor column (line + (i : Int)), Ev.Out '\n'])
        ++ [Ev.SetColor (Color.Black.toNat * 16 + Color.BrightWhite.toNat)] := by
  obtain ⟨pre, c, post, hsplit, hpre, hc, hfu⟩ := firstUnavailable_spec s h
  constructor
  · simp [mkPseudographicText, PseudographicText.setString, hfu]
  · simp [printOnce, mkPseudographicText, PseudographicText.setString, hfu,
      PseudographicText.setFontSize, PseudographicText.print,
      PseudographicText.output, PseudographicText.createText]

/-- Concrete instantiation of the C3 amended theorem at content "@". -/
theorem printOnce_invalid_trace_witness :
    (∃ c ∈ ['@'], availableChars.contains c = false) ∧
    ((mkPseudographicText ['@'] '$' '.' FontSize.Big Color.BrightGreen).2 ≠
        none ∧
     printOnce ['@'] '$' '.' FontSize.Big Color.BrightGreen '?' [] 7 9 =
       [Ev.SetColor Color.BrightGreen.toNat, Ev.SetCursor 9 7]
         ++ ((List.range FontSize.Big.toNat).flatMap fun i =>
             [Ev.SetCursor 9 (7 + (i : Int)), Ev.Out '\n'])
         ++ [Ev.SetColor (Color.Black.toNat * 16 + Color.BrightWhite.toNat)]) :=
  ⟨by decide,
   printOnce_invalid_trace ['@'] '$' '.' FontSize.Big Color.BrightGreen '?' []
     7 9 (by decide)⟩
